import Mathlib

/-!
Verification of the `@effect/unplugin` source transformer
(`packages/tools/unplugin/src/sourceTrace.ts` and `annotateEffects.ts`).

The Babel AST fragment used by the transformer is embedded as the inductive
type `Node` below; the transformer's pure helpers (`isEffectGenCall`,
`extractFunctionName`, `findOrGetEffectImport`, ...) are translated function
by function, and the two Babel traversals of `transform` (span
instrumentation, and the two-phase yield* source tracing) are realised as
structural recursions over `Node`.  Parsing and code emission are external
boundaries of the engine; accordingly `transform` takes the parser's result
(`Option (List Node)`) alongside the raw text, and a transformed result
carries the final AST (`OutCode.emitted`) where the real code hands the tree
to the emitter.
-/

namespace EffectUnplugin

/-- Source location (`loc.start`) carried by Babel nodes. -/
structure Loc where
  line : Nat
  col : Nat
deriving DecidableEq, Repr

/-- Import specifiers as distinguished by the transformer:
`import * as N`, `import { imported as localName }`, `import def`. -/
inductive ImportSpec where
  | namespaceSpec (localName : String)
  | named (importedName : String) (localName : String)
  | defaultSpec (localName : String)
deriving DecidableEq, Repr

/-- The fragment of the Babel AST that `sourceTrace.ts` and
`annotateEffects.ts` inspect or build.  Statements and expressions are merged
into one type; a program is a `List Node` of top-level statements.  `annot`
models a leading `@__PURE__` comment attached to the node it wraps. -/
inductive Node where
  | ident (name : String)
  | strLit (value : String)
  | numLit (value : Nat)
  | member (obj : Node) (prop : Node)
  | call (callee : Node) (args : List Node) (loc : Option Loc)
  | yieldE (delegate : Bool) (argument : Option Node) (loc : Option Loc)
  | functionE (generator : Bool) (body : List Node)
  | arrow (params : List String) (body : Node)
  | objectE (props : List Node)
  | propE (name : String) (value : Node)
  | spreadE (e : Node)
  | arrayE (elems : List Node)
  | importD (source : String) (specs : List ImportSpec)
  | varDecl (name : String) (init : Node)
  | exprStmt (e : Node)
  | ret (e : Node)
  | exportDefault (e : Node)
  | annot (e : Node)

namespace Node

/-- The fixed list of instrumentable combinators (`ALL_INSTRUMENTABLE`). -/
def ALL_INSTRUMENTABLE : List String :=
  ["gen", "fork", "forkDaemon", "forkScoped", "all", "forEach", "filter",
   "reduce", "iterate", "loop"]

/-- `resolveInstrumentable`: `include ?? ALL_INSTRUMENTABLE` minus `exclude`. -/
def resolveInstrumentable (includeList excludeList : Option (List String)) :
    List String :=
  (includeList.getD ALL_INSTRUMENTABLE).filter
    (fun name => !(excludeList.getD []).contains name)

/-- `isEffectGenCall`: `<effectImportName>.gen(...)` or a bare call to
`<genImportName>(...)`. -/
def isEffectGenCall (callee : Node) (effectImportName : String)
    (genImportName : Option String) : Bool :=
  match callee with
  | .member (.ident o) (.ident p) => o == effectImportName && p == "gen"
  | .ident n => genImportName == some n
  | _ => false

/-- `extractFunctionName`, translated branch by branch.  The source's third
branch (`Effect.succeed(...) ↦ "Effect.succeed"`) is preceded by the second
branch, which already matches every member-expression callee with an
identifier property, so it is unreachable; the translation keeps the same
match order. -/
def extractFunctionName (node : Node) : String :=
  match node with
  | .call (.ident n) _ _ => n
  | .call (.member _ (.ident p)) _ _ => p
  | _ => "unknown"

/-- Frame metadata collected for one `yield*` site (`StackFrameInfo`). -/
structure StackFrameInfo where
  name : String
  location : String
  varName : String
deriving DecidableEq, Repr

/-- `createStackFrameDeclaration`: the hoisted
`const _sfN = { name, stack: () => loc, parent: undefined }`. -/
def createStackFrameDeclaration (info : StackFrameInfo) : Node :=
  .varDecl info.varName (.objectE
    [.propE "name" (.strLit info.name),
     .propE "stack" (.arrow [] (.strLit info.location)),
     .propE "parent" (.ident "undefined")])

/-- `wrapWithUpdateService`: rewrites a `yield*` argument into
`Effect.updateService(arg, References.CurrentStackFrame,
(parent) => ({ ..._sfN, parent }))`. -/
def wrapWithUpdateService (argument : Node) (frameVarName effectImportName
    referencesImportName : String) : Node :=
  .call
    (.member (.ident effectImportName) (.ident "updateService"))
    [argument,
     .member (.ident referencesImportName) (.ident "CurrentStackFrame"),
     .arrow ["parent"] (.objectE
       [.spreadE (.ident frameVarName),
        .propE "parent" (.ident "parent")])]
    none

/-- `createSpanName`: `"<var> (<file>:<line>)"`, or `"<file>:<line>"` when the
call is not the initializer of a variable declarator. -/
def createSpanName (variableName : Option String) (fileName : String)
    (line : Nat) : String :=
  match variableName with
  | some v => v ++ " (" ++ fileName ++ ":" ++ toString line ++ ")"
  | none => fileName ++ ":" ++ toString line

/-- `wrapWithSpan`: `Effect.withSpan(expr, "name")` - the span name is the
only extra argument the transformer passes. -/
def wrapWithSpan (expr : Node) (spanName effectImportName : String) : Node :=
  .call (.member (.ident effectImportName) (.ident "withSpan"))
    [expr, .strLit spanName] none

/-- JavaScript's `"…".split("/")` over a character list (an empty input
gives one empty piece, a trailing separator a trailing empty piece). -/
def splitOnSlash : List Char → List (List Char)
  | [] => [[]]
  | c :: cs =>
    let r := splitOnSlash cs
    if c = '/' then [] :: r
    else
      match r with
      | h :: t => (c :: h) :: t
      | [] => [[c]]

/-- `getFileName`: last `/`-separated component of the path. -/
def getFileName (filePath : String) : String :=
  String.mk ((splitOnSlash filePath.data).getLastD filePath.data)

/-- One step of `findOrGetEffectImport`'s inner specifier loop. -/
def scanSpec (acc : Option String × Option String) (s : ImportSpec) :
    Option String × Option String :=
  match s with
  | .namespaceSpec l => (some l, acc.2)
  | .named imported l =>
    if imported == "Effect" then (some l, acc.2)
    else if imported == "gen" then (acc.1, some l)
    else acc
  | .defaultSpec _ => acc

/-- `findOrGetEffectImport`'s scan over the top-level statements: later
`"effect"` imports overwrite earlier bindings.  The caller applies the
`?? "Effect"` default. -/
def findEffectImport (body : List Node) : Option String × Option String :=
  body.foldl
    (fun acc stmt =>
      match stmt with
      | .importD source specs =>
        if source == "effect" then specs.foldl scanSpec acc else acc
      | _ => acc)
    (none, none)

/-- Does an import specifier bind `References`?  Returns its local name. -/
def findReferencesSpec (specs : List ImportSpec) : Option String :=
  specs.findSome? (fun s =>
    match s with
    | .named imported l => if imported == "References" then some l else none
    | _ => none)

/-- `ensureReferencesImport`: the first `"effect"` import either already binds
`References` (return its local name) or gets `References` appended; with no
`"effect"` import at all, a fresh one is unshifted. -/
def ensureReferencesImport (body : List Node) : String × List Node :=
  match body.findIdx? (fun stmt =>
      match stmt with
      | .importD source _ => source == "effect"
      | _ => false) with
  | some i =>
    match body[i]? with
    | some (.importD source specs) =>
      match findReferencesSpec specs with
      | some l => (l, body)
      | none =>
        ("References",
         body.set i (.importD source (specs ++ [.named "References" "References"])))
    | _ => ("References", body)
  | none =>
    ("References", .importD "effect" [.named "References" "References"] :: body)

/-- Index at which the hoisted frame block is spliced: the index of the first
statement that is not an import declaration (the whole length when every
statement is an import). -/
def insertIdx (body : List Node) : Nat :=
  match body with
  | [] => 0
  | stmt :: rest =>
    match stmt with
    | .importD _ _ => insertIdx rest + 1
    | _ => 0

/-- `fileId:line:column`, the dedup key of a delegation site. -/
def locationKey (id : String) (l : Loc) : String :=
  id ++ ":" ++ toString l.line ++ ":" ++ toString l.col

/-- Does `arguments[0]` exist and is it a generator function expression? -/
def isGeneratorHead (args : List Node) : Bool :=
  match args with
  | .functionE true _ :: _ => true
  | _ => false

mutual

/-- The span-instrumentation traversal: every call whose callee is
`<effectName>.<m>` with `m` instrumentable and which carries a source
location is replaced by `Effect.withSpan(call, spanName)`; the traversal
then continues into the original call, so nested matches are wrapped too.
`assigned` is the name bound by a directly enclosing variable declarator
(`getAssignedVariableName`). -/
def spanN (instr : List String) (en fileName : String)
    (assigned : Option String) : Node → Node
  | .call callee args loc =>
    let processed := Node.call (spanN instr en fileName none callee)
      (spanL instr en fileName args) loc
    match callee, loc with
    | .member (.ident o) (.ident p), some l =>
      if o == en && instr.contains p then
        Node.call (.member (.ident en) (.ident "withSpan"))
          [processed, .strLit (Node.createSpanName assigned fileName l.line)]
          none
      else processed
    | _, _ => processed
  | .varDecl n i => .varDecl n (spanN instr en fileName (some n) i)
  | .yieldE d a l =>
    match a with
    | some x => .yieldE d (some (spanN instr en fileName none x)) l
    | none => .yieldE d none l
  | .member o p =>
    .member (spanN instr en fileName none o) (spanN instr en fileName none p)
  | .functionE g body => .functionE g (spanL instr en fileName body)
  | .arrow ps b => .arrow ps (spanN instr en fileName none b)
  | .objectE props => .objectE (spanL instr en fileName props)
  | .propE n v => .propE n (spanN instr en fileName none v)
  | .spreadE e => .spreadE (spanN instr en fileName none e)
  | .arrayE es => .arrayE (spanL instr en fileName es)
  | .exprStmt e => .exprStmt (spanN instr en fileName none e)
  | .ret e => .ret (spanN instr en fileName none e)
  | .exportDefault e => .exportDefault (spanN instr en fileName none e)
  | .annot e => .annot (spanN instr en fileName none e)
  | .ident n => .ident n
  | .strLit s => .strLit s
  | .numLit n => .numLit n
  | .importD s sp => .importD s sp

/-- `spanN` mapped over child lists (children of a list never have a
variable-declarator parent, so `assigned` is `none`). -/
def spanL (instr : List String) (en fileName : String) :
    List Node → List Node
  | [] => []
  | x :: xs => spanN instr en fileName none x :: spanL instr en fileName xs

end

mutual

/-- Is there a span-instrumentable call (with a location) anywhere in the
tree?  Exactly when this holds does the span pass set `hasTransformed`. -/
def spanHitN (instr : List String) (en : String) : Node → Bool
  | .call callee args loc =>
    (match callee, loc with
     | .member (.ident o) (.ident p), some _ => o == en && instr.contains p
     | _, _ => false) ||
    spanHitN instr en callee || spanHitL instr en args
  | .yieldE _ a _ =>
    match a with
    | some x => spanHitN instr en x
    | none => false
  | .member o p => spanHitN instr en o || spanHitN instr en p
  | .functionE _ body => spanHitL instr en body
  | .arrow _ b => spanHitN instr en b
  | .objectE props => spanHitL instr en props
  | .propE _ v => spanHitN instr en v
  | .spreadE e => spanHitN instr en e
  | .arrayE es => spanHitL instr en es
  | .varDecl _ i => spanHitN instr en i
  | .exprStmt e => spanHitN instr en e
  | .ret e => spanHitN instr en e
  | .exportDefault e => spanHitN instr en e
  | .annot e => spanHitN instr en e
  | _ => false

/-- `spanHitN` over a list of children. -/
def spanHitL (instr : List String) (en : String) : List Node → Bool
  | [] => false
  | x :: xs => spanHitN instr en x || spanHitL instr en xs

end

mutual

/-- Phase-1 inner walk of one generator body (`path.traverse` of a matched
`Effect.gen` call): collects every `yield*` site `(loc, argument)`, skipping
the subtree of any nested `Effect.gen` call (`nestedPath.skip()`). -/
def collectInnerN (en : String) (gn : Option String) :
    Node → List (Loc × Node)
  | .call callee args _ =>
    if Node.isEffectGenCall callee en gn then []
    else collectInnerN en gn callee ++ collectInnerL en gn args
  | .yieldE d a l =>
    (match d, a, l with
     | true, some arg, some loc => [(loc, arg)]
     | _, _, _ => []) ++
    (match a with
     | some arg => collectInnerN en gn arg
     | none => [])
  | .member o p => collectInnerN en gn o ++ collectInnerN en gn p
  | .functionE _ body => collectInnerL en gn body
  | .arrow _ b => collectInnerN en gn b
  | .objectE props => collectInnerL en gn props
  | .propE _ v => collectInnerN en gn v
  | .spreadE e => collectInnerN en gn e
  | .arrayE es => collectInnerL en gn es
  | .varDecl _ i => collectInnerN en gn i
  | .exprStmt e => collectInnerN en gn e
  | .ret e => collectInnerN en gn e
  | .exportDefault e => collectInnerN en gn e
  | .annot e => collectInnerN en gn e
  | _ => []

/-- `collectInnerN` over a list of children. -/
def collectInnerL (en : String) (gn : Option String) :
    List Node → List (Loc × Node)
  | [] => []
  | x :: xs => collectInnerN en gn x ++ collectInnerL en gn xs

end

mutual

/-- Phase-1 main traversal: at every matched generator-construction call
whose first argument is a generator function expression, run the inner walk
over its children (callee first, then arguments, as Babel visits them), then
keep descending - nested generator calls are re-visited here as their own
top-level match. -/
def collectMainN (en : String) (gn : Option String) :
    Node → List (Loc × Node)
  | .call callee args _ =>
    (if Node.isEffectGenCall callee en gn && isGeneratorHead args then
       collectInnerN en gn callee ++ collectInnerL en gn args
     else []) ++
    collectMainN en gn callee ++ collectMainL en gn args
  | .yieldE _ a _ =>
    match a with
    | some arg => collectMainN en gn arg
    | none => []
  | .member o p => collectMainN en gn o ++ collectMainN en gn p
  | .functionE _ body => collectMainL en gn body
  | .arrow _ b => collectMainN en gn b
  | .objectE props => collectMainL en gn props
  | .propE _ v => collectMainN en gn v
  | .spreadE e => collectMainN en gn e
  | .arrayE es => collectMainL en gn es
  | .varDecl _ i => collectMainN en gn i
  | .exprStmt e => collectMainN en gn e
  | .ret e => collectMainN en gn e
  | .exportDefault e => collectMainN en gn e
  | .annot e => collectMainN en gn e
  | _ => []

/-- `collectMainN` over a list of children. -/
def collectMainL (en : String) (gn : Option String) :
    List Node → List (Loc × Node)
  | [] => []
  | x :: xs => collectMainN en gn x ++ collectMainL en gn xs

end

/-- The fold body of phase 1's dedup registry: a fresh `locationKey` appends
one `StackFrameInfo` whose synthetic id is `_sf<counter>`, where the counter
equals the number of frames created so far. -/
def buildFramesGo (id : String) (extractFn : Bool)
    (acc : List Node.StackFrameInfo) :
    List (Loc × Node) → List Node.StackFrameInfo
  | [] => acc
  | (l, a) :: rest =>
    let key := locationKey id l
    if acc.any (fun f => f.location == key) then
      buildFramesGo id extractFn acc rest
    else
      buildFramesGo id extractFn
        (acc ++ [{ name := if extractFn then Node.extractFunctionName a else "effect",
                   location := key,
                   varName := "_sf" ++ toString acc.length }])
        rest

/-- `framesByLocation` as an insertion-ordered list. -/
def buildFrames (id : String) (extractFn : Bool)
    (sites : List (Loc × Node)) : List Node.StackFrameInfo :=
  buildFramesGo id extractFn [] sites

/-- `framesByLocation.get(location)`. -/
def frameFor (fs : List Node.StackFrameInfo) (key : String) :
    Option Node.StackFrameInfo :=
  fs.find? (fun f => f.location == key)

mutual

/-- Phase 2, the `yield*` rewriter.  The real pass is the same two-level
traversal as phase 1 (an inner walk per matched generator call that skips
nested generator calls, which are then processed at their own match); since
the rewrite of each site is local, the composite is embedded as one walk
carrying `inGen` - whether the node lies inside a matched generator body,
reset on the boundary of every generator-construction call.  A delegating
`yield*` with a location whose key has a frame gets its argument wrapped
by `wrapWithUpdateService`; the walk continues inside the argument. -/
def rwN (fs : List Node.StackFrameInfo) (id en : String)
    (gn : Option String) (refName : String) (inGen : Bool) : Node → Node
  | .call callee args loc =>
    let inGen' := if Node.isEffectGenCall callee en gn then
        isGeneratorHead args
      else inGen
    .call (rwN fs id en gn refName inGen' callee)
      (rwL fs id en gn refName inGen' args) loc
  | .yieldE d a l =>
    match a with
    | none => .yieldE d none l
    | some arg =>
      let arg' := rwN fs id en gn refName inGen arg
      match d, l with
      | true, some loc =>
        if inGen then
          match frameFor fs (locationKey id loc) with
          | some f =>
            .yieldE true
              (some (Node.wrapWithUpdateService arg' f.varName en refName))
              (some loc)
          | none => .yieldE true (some arg') (some loc)
        else .yieldE true (some arg') (some loc)
      | _, _ => .yieldE d (some arg') l
  | .member o p =>
    .member (rwN fs id en gn refName inGen o) (rwN fs id en gn refName inGen p)
  | .functionE g body => .functionE g (rwL fs id en gn refName inGen body)
  | .arrow ps b => .arrow ps (rwN fs id en gn refName inGen b)
  | .objectE props => .objectE (rwL fs id en gn refName inGen props)
  | .propE n v => .propE n (rwN fs id en gn refName inGen v)
  | .spreadE e => .spreadE (rwN fs id en gn refName inGen e)
  | .arrayE es => .arrayE (rwL fs id en gn refName inGen es)
  | .varDecl n i => .varDecl n (rwN fs id en gn refName inGen i)
  | .exprStmt e => .exprStmt (rwN fs id en gn refName inGen e)
  | .ret e => .ret (rwN fs id en gn refName inGen e)
  | .exportDefault e => .exportDefault (rwN fs id en gn refName inGen e)
  | .annot e => .annot (rwN fs id en gn refName inGen e)
  | .ident n => .ident n
  | .strLit s => .strLit s
  | .numLit n => .numLit n
  | .importD s sp => .importD s sp

/-- `rwN` over a list of children. -/
def rwL (fs : List Node.StackFrameInfo) (id en : String)
    (gn : Option String) (refName : String) (inGen : Bool) :
    List Node → List Node
  | [] => []
  | x :: xs =>
    rwN fs id en gn refName inGen x :: rwL fs id en gn refName inGen xs

end

/-- Recognises the exact expression shape produced by
`wrapWithUpdateService` and returns the referenced frame variable. -/
def wrapVar (en : String) : Node → Option String
  | .call (.member (.ident o) (.ident u))
      [_, _, .arrow [p] (.objectE [.spreadE (.ident v), .propE pp (.ident pv)])]
      _ =>
    if o == en && u == "updateService" && p == "parent" && pp == "parent" &&
        pv == "parent" then
      some v
    else none
  | _ => none

mutual

/-- Observation: the frame variables referenced by `updateService` wraps
sitting directly on a `yield*` argument, in document order. -/
def obsN (en : String) : Node → List String
  | .call c as _ => obsN en c ++ obsL en as
  | .yieldE d a _ =>
    match d, a with
    | true, some arg =>
      (match wrapVar en arg with
       | some v => [v]
       | none => []) ++ obsN en arg
    | _, some arg => obsN en arg
    | _, none => []
  | .member o p => obsN en o ++ obsN en p
  | .functionE _ body => obsL en body
  | .arrow _ b => obsN en b
  | .objectE props => obsL en props
  | .propE _ v => obsN en v
  | .spreadE e => obsN en e
  | .arrayE es => obsL en es
  | .varDecl _ i => obsN en i
  | .exprStmt e => obsN en e
  | .ret e => obsN en e
  | .exportDefault e => obsN en e
  | .annot e => obsN en e
  | _ => []

/-- `obsN` over a list of children. -/
def obsL (en : String) : List Node → List String
  | [] => []
  | x :: xs => obsN en x ++ obsL en xs

end

mutual

/-- A tree is clean when no `yield*` argument already has the
`wrapWithUpdateService` shape (true of any tree the transformer has not yet
rewritten). -/
def cleanN (en : String) : Node → Bool
  | .call c as _ => cleanN en c && cleanL en as
  | .yieldE _ a _ =>
    match a with
    | some arg => (wrapVar en arg).isNone && cleanN en arg
    | none => true
  | .member o p => cleanN en o && cleanN en p
  | .functionE _ body => cleanL en body
  | .arrow _ b => cleanN en b
  | .objectE props => cleanL en props
  | .propE _ v => cleanN en v
  | .spreadE e => cleanN en e
  | .arrayE es => cleanL en es
  | .varDecl _ i => cleanN en i
  | .exprStmt e => cleanN en e
  | .ret e => cleanN en e
  | .exportDefault e => cleanN en e
  | .annot e => cleanN en e
  | _ => true

/-- `cleanN` over a list of children. -/
def cleanL (en : String) : List Node → Bool
  | [] => true
  | x :: xs => cleanN en x && cleanL en xs

end

mutual

/-- The site list of the phase-1/phase-2 traversals re-expressed with the
same single-walk `inGen` mode as `rwN`: document order rather than the
per-generator grouping of `collectMainN`.  The two enumerate the same
multiset of sites (proved below). -/
def collectModeN (en : String) (gn : Option String) (inGen : Bool) :
    Node → List (Loc × Node)
  | .call callee args _ =>
    let inGen' := if Node.isEffectGenCall callee en gn then
        isGeneratorHead args
      else inGen
    collectModeN en gn inGen' callee ++ collectModeL en gn inGen' args
  | .yieldE d a l =>
    match a with
    | some arg =>
      (match d, l with
       | true, some loc => if inGen then [(loc, arg)] else []
       | _, _ => []) ++ collectModeN en gn inGen arg
    | none => []
  | .member o p => collectModeN en gn inGen o ++ collectModeN en gn inGen p
  | .functionE _ body => collectModeL en gn inGen body
  | .arrow _ b => collectModeN en gn inGen b
  | .objectE props => collectModeL en gn inGen props
  | .propE _ v => collectModeN en gn inGen v
  | .spreadE e => collectModeN en gn inGen e
  | .arrayE es => collectModeL en gn inGen es
  | .varDecl _ i => collectModeN en gn inGen i
  | .exprStmt e => collectModeN en gn inGen e
  | .ret e => collectModeN en gn inGen e
  | .exportDefault e => collectModeN en gn inGen e
  | .annot e => collectModeN en gn inGen e
  | _ => []

/-- `collectModeN` over a list of children. -/
def collectModeL (en : String) (gn : Option String) (inGen : Bool) :
    List Node → List (Loc × Node)
  | [] => []
  | x :: xs =>
    collectModeN en gn inGen x ++ collectModeL en gn inGen xs

end

mutual

/-- Observation: every span-wrap call `<en>.withSpan(e, "name", ...)` in the
tree, in document order, as `(name, argument count)` - the argument count
records whether an attributes object was passed. -/
def spanObsN (en : String) : Node → List (String × Nat)
  | .call c as _ =>
    (match c, as with
     | .member (.ident o) (.ident p), _ :: .strLit s :: _ =>
       if o == en && p == "withSpan" then [(s, as.length)] else []
     | _, _ => []) ++ spanObsN en c ++ spanObsL en as
  | .yieldE _ a _ =>
    match a with
    | some arg => spanObsN en arg
    | none => []
  | .member o p => spanObsN en o ++ spanObsN en p
  | .functionE _ body => spanObsL en body
  | .arrow _ b => spanObsN en b
  | .objectE props => spanObsL en props
  | .propE _ v => spanObsN en v
  | .spreadE e => spanObsN en e
  | .arrayE es => spanObsL en es
  | .varDecl _ i => spanObsN en i
  | .exprStmt e => spanObsN en e
  | .ret e => spanObsN en e
  | .exportDefault e => spanObsN en e
  | .annot e => spanObsN en e
  | _ => []

/-- `spanObsN` over a list of children. -/
def spanObsL (en : String) : List Node → List (String × Nat)
  | [] => []
  | x :: xs => spanObsN en x ++ spanObsL en xs

end

mutual

/-- Observation: how many calls to `<en>.updateService` the tree contains
(the count the repository's nesting test takes of the transformed output). -/
def updCountN (en : String) : Node → Nat
  | .call c as _ =>
    (match c with
     | .member (.ident o) (.ident p) =>
       if o == en && p == "updateService" then 1 else 0
     | _ => 0) + updCountN en c + updCountL en as
  | .yieldE _ a _ =>
    match a with
    | some arg => updCountN en arg
    | none => 0
  | .member o p => updCountN en o + updCountN en p
  | .functionE _ body => updCountL en body
  | .arrow _ b => updCountN en b
  | .objectE props => updCountL en props
  | .propE _ v => updCountN en v
  | .spreadE e => updCountN en e
  | .arrayE es => updCountL en es
  | .varDecl _ i => updCountN en i
  | .exprStmt e => updCountN en e
  | .ret e => updCountN en e
  | .exportDefault e => updCountN en e
  | .annot e => updCountN en e
  | _ => 0

/-- `updCountN` over a list of children. -/
def updCountL (en : String) : List Node → Nat
  | [] => 0
  | x :: xs => updCountN en x + updCountL en xs

end

mutual

/-- Observation: occurrences of the spread reference `..._v` (the only way a
rewritten call refers to its hoisted frame record). -/
def spreadCountN (v : String) : Node → Nat
  | .call c as _ => spreadCountN v c + spreadCountL v as
  | .yieldE _ a _ =>
    match a with
    | some arg => spreadCountN v arg
    | none => 0
  | .member o p => spreadCountN v o + spreadCountN v p
  | .functionE _ body => spreadCountL v body
  | .arrow _ b => spreadCountN v b
  | .objectE props => spreadCountL v props
  | .propE _ pv => spreadCountN v pv
  | .spreadE e =>
    (match e with
     | .ident n => if n == v then 1 else 0
     | _ => 0) + spreadCountN v e
  | .arrayE es => spreadCountL v es
  | .varDecl _ i => spreadCountN v i
  | .exprStmt e => spreadCountN v e
  | .ret e => spreadCountN v e
  | .exportDefault e => spreadCountN v e
  | .annot e => spreadCountN v e
  | _ => 0

/-- `spreadCountN` over a list of children. -/
def spreadCountL (v : String) : List Node → Nat
  | [] => 0
  | x :: xs => spreadCountN v x + spreadCountL v xs

end

/-- Observation: the synthetic variable bound by a top-level statement of the
exact shape `createStackFrameDeclaration` emits. -/
def frameDeclVar : Node → Option String
  | .varDecl v (.objectE
      [.propE pn (.strLit _),
       .propE ps (.arrow [] (.strLit _)),
       .propE pp (.ident u)]) =>
    if pn == "name" && ps == "stack" && pp == "parent" && u == "undefined" then
      some v
    else none
  | _ => none

/-- Observation: the frame variables of all hoisted frame declarations among
the top-level statements. -/
def hoistedVars (body : List Node) : List String :=
  body.filterMap frameDeclVar

end Node

/-- `DepthInstrumentationStrategy` from `types.ts` (a `perCombinator` value of
`none` stands for `Infinity`). -/
structure DepthStrategy where
  maxDepth : Option Nat := none
  perCombinator : List (String × Option Nat) := []

/-- `SpanInstrumentationOptions`.  `nameFormat` and `strategy` are declared in
`types.ts`; the transformer reads only `enabled`, `include` and `exclude`. -/
structure SpanOpts where
  enabled : Option Bool := none
  includeList : Option (List String) := none
  excludeList : Option (List String) := none
  nameFormat : Option String := none
  strategy : Option DepthStrategy := none

/-- `SourceTraceOptions` (the file include/exclude filters belong to the host
adapters, not to `transform`). -/
structure Options where
  sourceTrace : Option Bool := none
  extractFunctionName : Option Bool := none
  spans : Option SpanOpts := none

/-- The `code` field of a transform result: either the untouched input text,
or the final AST as handed to the external emitter. -/
inductive OutCode where
  | original (text : String)
  | emitted (program : List Node)

/-- `TransformResult` (the source map is emitter output, outside the engine). -/
structure TransformResult where
  code : OutCode
  transformed : Bool

/-- `spanOptions?.enabled === true`. -/
def spansEnabled (opts : Options) : Bool :=
  match opts.spans with
  | some so => so.enabled == some true
  | none => false

/-- The branch structure of `transform(code, id, options)`: `none` at every
point where the source returns `{ code, transformed: false }` (parse
failure, the no-binding guard, or no pass having set `hasTransformed`), and
`some finalAst` where it hands the mutated tree to the emitter.  `parsed` is
the external parser's result for `text`: `none` models a parse exception. -/
def transformPlan (parsed : Option (List Node)) (id : String)
    (opts : Options) : Option (List Node) :=
  let enableSourceTrace := opts.sourceTrace != some false
  let extractFn := opts.extractFunctionName != some false
  let enableSpans := spansEnabled opts
  match parsed with
  | none => none
  | some prog =>
    let found := Node.findEffectImport prog
    let effectName := found.1.getD "Effect"
    let genName := found.2
    if effectName == "" && genName == none then none
    else
      let fileName := Node.getFileName id
      let instr := Node.resolveInstrumentable
        (opts.spans.bind (·.includeList)) (opts.spans.bind (·.excludeList))
      let spanActive := enableSpans && effectName != ""
      let prog1 := if spanActive then
          Node.spanL instr effectName fileName prog
        else prog
      let spanChanged := spanActive && Node.spanHitL instr effectName prog
      if enableSourceTrace then
        let sites := Node.collectMainL effectName genName prog1
        let fs := Node.buildFrames id extractFn sites
        if fs.isEmpty then
          if spanChanged then some prog1 else none
        else
          let ensured := Node.ensureReferencesImport prog1
          let prog3 := Node.rwL fs id effectName genName ensured.1 false ensured.2
          let decls := fs.map Node.createStackFrameDeclaration
          let k := Node.insertIdx prog3
          let finalProg := prog3.take k ++ decls ++ prog3.drop k
          let traceChanged :=
            sites.any (fun s => (Node.frameFor fs (Node.locationKey id s.1)).isSome)
          if spanChanged || traceChanged then some finalProg else none
      else
        if spanChanged then some prog1 else none

/-- `transform(code, id, options)`: an untransformed invocation returns the
input text with `transformed: false`; a transformed one returns the final
tree (for the external emitter) with `transformed: true`. -/
def transform (text : String) (parsed : Option (List Node)) (id : String)
    (opts : Options) : TransformResult :=
  match transformPlan parsed id opts with
  | some p => ⟨.emitted p, true⟩
  | none => ⟨.original text, false⟩

/-- The 34 module names of `annotateEffects.ts`'s `EFFECT_MODULES` set. -/
def EFFECT_MODULES : List String :=
  ["Effect", "Option", "Either", "Data", "Schema", "Array", "Chunk",
   "HashMap", "HashSet", "List", "Queue", "Stream", "Layer", "Scope",
   "Ref", "SynchronizedRef", "SubscriptionRef", "Duration", "Schedule",
   "Cause", "Exit", "Match", "Boolean", "Number", "String", "Struct",
   "Tuple", "Function", "Predicate", "Order", "Equivalence", "Context",
   "Brand", "Types"]

/-- `isEffectModuleCall`: the callee is a member expression whose object is
an identifier in `EFFECT_MODULES` (the property is not inspected, and
no imports are consulted). -/
def isEffectModuleCall (callee : Node) : Bool :=
  match callee with
  | .member (.ident o) _ => EFFECT_MODULES.contains o
  | _ => false

/-- Ancestor kinds distinguished by `isInAnnotatableContext`'s upward walk. -/
inductive Anc where
  | varDeclarator
  | exportDecl
  | retStmt
  | arrowFn
  | blockOrProgram
  | other

/-- `isInAnnotatableContext`: walk the ancestor chain outward; a variable
declarator, export, return statement or arrow function accepts, a block or
the program boundary stops with a rejection, anything else keeps walking. -/
def isInAnnotatableContext : List Anc → Bool
  | [] => false
  | a :: rest =>
    match a with
    | .varDeclarator => true
    | .exportDecl => true
    | .retStmt => true
    | .arrowFn => true
    | .blockOrProgram => false
    | .other => isInAnnotatableContext rest

mutual

/-- The `annotateEffects` traversal.  `ancs` is the chain of ancestors from
the current node outward.  A call that is an effect-module call in an
annotatable context receives a leading pure comment (`annot`); a call that
already carries one (`hasPureAnnotation`) is skipped, though its children
are still visited. -/
def annN (ancs : List Anc) : Node → Node
  | .annot e => .annot (annUnder ancs e)
  | .call c as l =>
    let processed := Node.call (annN (.other :: ancs) c)
      (annL (.other :: ancs) as) l
    if isEffectModuleCall c && isInAnnotatableContext ancs then
      .annot processed
    else processed
  | .varDecl n i => .varDecl n (annN (.varDeclarator :: ancs) i)
  | .exportDefault e => .exportDefault (annN (.exportDecl :: ancs) e)
  | .ret e => .ret (annN (.retStmt :: ancs) e)
  | .arrow ps b => .arrow ps (annN (.arrowFn :: ancs) b)
  | .functionE g body => .functionE g (annL (.blockOrProgram :: ancs) body)
  | .member o p => .member (annN (.other :: ancs) o) (annN (.other :: ancs) p)
  | .yieldE d a l =>
    match a with
    | some x => .yieldE d (some (annN (.other :: ancs) x)) l
    | none => .yieldE d none l
  | .objectE props => .objectE (annL (.other :: ancs) props)
  | .propE n v => .propE n (annN (.other :: ancs) v)
  | .spreadE e => .spreadE (annN (.other :: ancs) e)
  | .arrayE es => .arrayE (annL (.other :: ancs) es)
  | .exprStmt e => .exprStmt (annN (.other :: ancs) e)
  | .ident n => .ident n
  | .strLit s => .strLit s
  | .numLit n => .numLit n
  | .importD s sp => .importD s sp

/-- Children of a node that already carries a pure annotation: the node
itself is not re-annotated, but the traversal continues below it. -/
def annUnder (ancs : List Anc) : Node → Node
  | .call c as l =>
    .call (annN (.other :: ancs) c) (annL (.other :: ancs) as) l
  | .ident n => .ident n
  | .strLit s => .strLit s
  | .numLit n => .numLit n
  | .importD s sp => .importD s sp
  | .member o p => .member (annN (.other :: ancs) o) (annN (.other :: ancs) p)
  | .yieldE d a l =>
    match a with
    | some x => .yieldE d (some (annN (.other :: ancs) x)) l
    | none => .yieldE d none l
  | .functionE g body => .functionE g (annL (.blockOrProgram :: ancs) body)
  | .arrow ps b => .arrow ps (annN (.arrowFn :: ancs) b)
  | .objectE props => .objectE (annL (.other :: ancs) props)
  | .propE n v => .propE n (annN (.other :: ancs) v)
  | .spreadE e => .spreadE (annN (.other :: ancs) e)
  | .arrayE es => .arrayE (annL (.other :: ancs) es)
  | .varDecl n i => .varDecl n (annN (.varDeclarator :: ancs) i)
  | .exprStmt e => .exprStmt (annN (.other :: ancs) e)
  | .ret e => .ret (annN (.retStmt :: ancs) e)
  | .exportDefault e => .exportDefault (annN (.exportDecl :: ancs) e)
  | .annot e => .annot (annUnder ancs e)

/-- `annN` over a list of children. -/
def annL (ancs : List Anc) : List Node → List Node
  | [] => []
  | x :: xs => annN ancs x :: annL ancs xs

end

mutual

/-- Does the annotation traversal add at least one pure comment?  Exactly
when this holds does `annotateEffects` set `hasTransformed`. -/
def annHitN (ancs : List Anc) : Node → Bool
  | .annot e => annHitUnder ancs e
  | .call c as _ =>
    (isEffectModuleCall c && isInAnnotatableContext ancs) ||
    annHitN (.other :: ancs) c || annHitL (.other :: ancs) as
  | .varDecl _ i => annHitN (.varDeclarator :: ancs) i
  | .exportDefault e => annHitN (.exportDecl :: ancs) e
  | .ret e => annHitN (.retStmt :: ancs) e
  | .arrow _ b => annHitN (.arrowFn :: ancs) b
  | .functionE _ body => annHitL (.blockOrProgram :: ancs) body
  | .member o p => annHitN (.other :: ancs) o || annHitN (.other :: ancs) p
  | .yieldE _ a _ =>
    match a with
    | some x => annHitN (.other :: ancs) x
    | none => false
  | .objectE props => annHitL (.other :: ancs) props
  | .propE _ v => annHitN (.other :: ancs) v
  | .spreadE e => annHitN (.other :: ancs) e
  | .arrayE es => annHitL (.other :: ancs) es
  | .exprStmt e => annHitN (.other :: ancs) e
  | _ => false

/-- Like `annHitN`, below a node that already carries a pure comment. -/
def annHitUnder (ancs : List Anc) : Node → Bool
  | .call c as _ =>
    annHitN (.other :: ancs) c || annHitL (.other :: ancs) as
  | .annot e => annHitUnder ancs e
  | .varDecl _ i => annHitN (.varDeclarator :: ancs) i
  | .exportDefault e => annHitN (.exportDecl :: ancs) e
  | .ret e => annHitN (.retStmt :: ancs) e
  | .arrow _ b => annHitN (.arrowFn :: ancs) b
  | .functionE _ body => annHitL (.blockOrProgram :: ancs) body
  | .member o p => annHitN (.other :: ancs) o || annHitN (.other :: ancs) p
  | .yieldE _ a _ =>
    match a with
    | some x => annHitN (.other :: ancs) x
    | none => false
  | .objectE props => annHitL (.other :: ancs) props
  | .propE _ v => annHitN (.other :: ancs) v
  | .spreadE e => annHitN (.other :: ancs) e
  | .arrayE es => annHitL (.other :: ancs) es
  | .exprStmt e => annHitN (.other :: ancs) e
  | _ => false

/-- `annHitN` over a list of children. -/
def annHitL (ancs : List Anc) : List Node → Bool
  | [] => false
  | x :: xs => annHitN ancs x || annHitL ancs xs

end

/-- `annotateEffects(code, id)`.  `parsed` is the external parser's result;
`none` models a parse exception, recovered by returning the input text. -/
def annotateEffects (text : String) (parsed : Option (List Node))
    (_id : String) : TransformResult :=
  match parsed with
  | none => ⟨.original text, false⟩
  | some prog =>
    if annHitL [.blockOrProgram] prog then
      ⟨.emitted (annL [.blockOrProgram] prog), true⟩
    else ⟨.original text, false⟩

/-- Observation: the program a transformed result hands to the emitter
(empty for an untransformed result). -/
def emittedBody (res : TransformResult) : List Node :=
  match res.code with
  | .emitted p => p
  | .original _ => []

/-! ### Concrete input fixtures

ASTs of the small programs used by the repository's own test-suite, with the
source locations they get from the quoted source text. -/

/-- `const program = Effect.gen(function* () { yield* getData() })` with
no imports whatsoever. -/
def noImportProgram : List Node :=
  [.varDecl "program" (.call (.member (.ident "Effect") (.ident "gen"))
    [.functionE true [.exprStmt (.yieldE true
      (some (.call (.ident "getData") [] (some ⟨2, 9⟩)))
      (some ⟨2, 2⟩))]]
    (some ⟨1, 16⟩))]

/-- `import { Effect } from "effect"; const getUser = Effect.gen(function* ()
{ yield* Effect.succeed(42) })` - line 4 holds the `Effect.gen` call. -/
def getUserProgram : List Node :=
  [.importD "effect" [.named "Effect" "Effect"],
   .varDecl "getUser" (.call (.member (.ident "Effect") (.ident "gen"))
     [.functionE true [.exprStmt (.yieldE true
       (some (.call (.member (.ident "Effect") (.ident "succeed"))
         [.numLit 42] (some ⟨5, 9⟩)))
       (some ⟨5, 2⟩))]]
     (some ⟨4, 16⟩))]

/-- The spec's span-depth example,
`const program = Effect.gen(function* () { const nested =
Effect.all([Effect.forEach([1, 2], (n) => n)]) })`:
`gen` on line 4 (depth 0), `all` on line 5 (depth 1), `forEach` on line 6
(depth 2). -/
def depthExampleProgram : List Node :=
  [.importD "effect" [.named "Effect" "Effect"],
   .varDecl "program" (.call (.member (.ident "Effect") (.ident "gen"))
     [.functionE true [
       .varDecl "nested" (.call (.member (.ident "Effect") (.ident "all"))
         [.arrayE [.call (.member (.ident "Effect") (.ident "forEach"))
           [.arrayE [.numLit 1, .numLit 2], .arrow ["n"] (.ident "n")]
           (some ⟨6, 4⟩)]]
         (some ⟨5, 17⟩))]]
     (some ⟨4, 16⟩))]

/-- The two-level nested generator of the repository's nesting test:
`const outer = Effect.gen(function* () { const inner =
Effect.gen(function* () { yield* Effect.succeed("inner") }); yield* inner })`. -/
def nestedGenProgram : List Node :=
  [.importD "effect" [.named "Effect" "Effect"],
   .varDecl "outer" (.call (.member (.ident "Effect") (.ident "gen"))
     [.functionE true [
       .varDecl "inner" (.call (.member (.ident "Effect") (.ident "gen"))
         [.functionE true [.exprStmt (.yieldE true
           (some (.call (.member (.ident "Effect") (.ident "succeed"))
             [.strLit "inner"] (some ⟨6, 11⟩)))
           (some ⟨6, 4⟩))]]
         (some ⟨5, 16⟩)),
       .exprStmt (.yieldE true (some (.ident "inner")) (some ⟨8, 2⟩))]]
     (some ⟨4, 16⟩))]

/-- Options used by the repository's span tests:
`{ sourceTrace: false, spans: { enabled: true } }`. -/
def spanOnlyOptions : Options :=
  { sourceTrace := some false, spans := some { enabled := some true } }

/-- The claim's depth-strategy configuration: `{ sourceTrace: false, spans:
{ enabled: true, strategy: { type: "depth", maxDepth: 1 } } }`. -/
def depthStrategyOptions : Options :=
  { sourceTrace := some false,
    spans := some { enabled := some true,
                    strategy := some { maxDepth := some 1 } } }

/-! ### Claim theorems -/

/-- C1: the claim says a source with no import of the effect library under
any recognizable alias is returned with `transformed: false` and no
rewriting, even when it uses the default namespace spelling.  The code
violates this: `findOrGetEffectImport` finds no binding (`(none, none)`
here), but defaults the namespace alias to `"Effect"`, so its no-import
short-circuit is unreachable and a no-import file that spells calls
`Effect.gen(...)` is rewritten (`transformed = true`, one frame wrap
emitted). -/
theorem C1_no_import_still_rewrites :
    Node.findEffectImport noImportProgram = (none, none) ∧
    (transform "src" (some noImportProgram) "app.ts" {}).transformed = true ∧
    Node.obsL "Effect"
      (emittedBody (transform "src" (some noImportProgram) "app.ts" {})) =
      ["_sf0"] :=
  ⟨rfl, rfl, rfl⟩

/-- C2: the claim says that under the depth strategy with `maxDepth: 1`, the
`gen` (depth 0) and `all` (depth 1) calls are wrapped and the `forEach`
(depth 2) call is not.  The code violates this: the span pass never reads
`spans.strategy`, so with the depth strategy configured it still wraps all
three matched calls - the third span below (`"app.ts:6"`, with no bound
name) is the `forEach` call at depth 2. -/
theorem C2_depth_limit_not_enforced :
    (transform "src" (some depthExampleProgram) "/src/app.ts"
      depthStrategyOptions).transformed = true ∧
    Node.spanObsL "Effect"
      (emittedBody (transform "src" (some depthExampleProgram) "/src/app.ts"
        depthStrategyOptions)) =
      [("program (app.ts:4)", 2), ("nested (app.ts:5)", 2), ("app.ts:6", 2)] :=
  ⟨rfl, by decide⟩

/-- C3: the claim says every accepted match is wrapped with a
configuration-selected span name (default function-form
`"effect.gen (getUser)"`) and an attributes object carrying
`code.filepath` / `code.lineno` / `code.column` / `code.function`.  The code
violates this: `wrapWithSpan` passes exactly two arguments - the call and a
name string - so no attributes object exists, and `createSpanName` renders
`"getUser (UserRepo.ts:4)"`, not one of the three formats the claim
describes. -/
theorem C3_span_wrap_has_no_attributes :
    (transform "src" (some getUserProgram) "/src/UserRepo.ts"
      spanOnlyOptions).transformed = true ∧
    Node.spanObsL "Effect"
      (emittedBody (transform "src" (some getUserProgram) "/src/UserRepo.ts"
        spanOnlyOptions)) =
      [("getUser (UserRepo.ts:4)", 2)] :=
  ⟨rfl, by decide⟩

/-- C7: a delegation inside a nested generator is traversed once per
generator boundary: transforming the two-level nested generator with one
inner delegation and one outer delegation produces exactly two
`Effect.updateService` wraps, one per site, not more. -/
theorem C7_nested_generator_two_wraps :
    (transform "src" (some nestedGenProgram) "test.ts" {}).transformed =
      true ∧
    Node.updCountL "Effect"
      (emittedBody (transform "src" (some nestedGenProgram) "test.ts" {})) =
      2 ∧
    Node.obsL "Effect"
      (emittedBody (transform "src" (some nestedGenProgram) "test.ts" {})) =
      ["_sf1", "_sf0"] :=
  ⟨rfl, rfl, rfl⟩

/-- C8: on a parse failure (the external parser yields no tree) both the
main transform and the pure-call annotator return the original text with
`transformed: false`; both are total functions, so no exception escapes. -/
theorem C8_parse_failure_recovered (text id : String) (opts : Options) :
    transform text none id opts = ⟨.original text, false⟩ ∧
    annotateEffects text none id = ⟨.original text, false⟩ :=
  ⟨rfl, rfl⟩

/-- C4 (counterexample): the claim says a qualified call `Ns.m(...)` yields
the extracted name `"Ns.m"`; the code's member-expression branch already
returns just the method name, so `Ns.m(...)` extracts to `"m"` (the
qualified-name branch of `extractFunctionName` is unreachable, and the
repository's own test expects `"succeed"` for `Effect.succeed`). -/
theorem C4_qualified_name_counterexample :
    Node.extractFunctionName
        (.call (.member (.ident "Ns") (.ident "m")) [] none) = "m" ∧
    Node.extractFunctionName
        (.call (.member (.ident "Ns") (.ident "m")) [] none) ≠ "Ns.m" :=
  ⟨rfl, by decide⟩

/-- Frames built with name extraction disabled all carry the fixed fallback
name `"effect"`. -/
theorem buildFramesGo_fallback (id : String) (sites : List (Loc × Node))
    (acc : List Node.StackFrameInfo)
    (h : acc.all (fun fr => fr.name == "effect") = true) :
    (Node.buildFramesGo id false acc sites).all
      (fun fr => fr.name == "effect") = true := by
  induction sites generalizing acc with
  | nil => simpa [Node.buildFramesGo] using h
  | cons s rest ih =>
    obtain ⟨l, a⟩ := s
    simp only [Node.buildFramesGo]
    split
    · exact ih _ h
    · exact ih _ (by simp_all)

/-- C4 (amended): name extraction for a delegation argument follows the
code's precedence - a bare call `f(...)` yields `f`; any call whose callee
is a member expression with an identifier property yields just the property
name `m` (so `obj.m(...)` and `Ns.m(...)` both yield `"m"`; the qualified
`"Ns.m"` branch is dead code); every other shape yields the sentinel
`"unknown"`; and with extraction globally disabled every frame gets the
fixed fallback name `"effect"` regardless of shape. -/
theorem C4_name_extraction_amended :
    (∀ f args loc, Node.extractFunctionName (.call (.ident f) args loc) = f) ∧
    (∀ obj m args loc,
      Node.extractFunctionName (.call (.member obj (.ident m)) args loc) = m) ∧
    (∀ v, Node.extractFunctionName (.ident v) = "unknown") ∧
    (∀ d a l, Node.extractFunctionName (.yieldE d a l) = "unknown") ∧
    (∀ s args loc,
      Node.extractFunctionName (.call (.strLit s) args loc) = "unknown") ∧
    (∀ id sites,
      (Node.buildFrames id false sites).all
        (fun fr => fr.name == "effect") = true) := by
  refine ⟨fun f args loc => rfl, fun obj m args loc => ?_,
    fun v => rfl, fun d a l => rfl, fun s args loc => rfl,
    fun id sites => buildFramesGo_fallback id sites [] rfl⟩
  cases obj <;> rfl

/-- The probe program of C9: `const x = M.f(42)` with no imported
bindings at all, so `M` cannot resolve to the effect library. -/
def annotProbe (M : String) : List Node :=
  [.varDecl "x"
    (.call (.member (.ident M) (.ident "f")) [.numLit 42] (some ⟨3, 10⟩))]

/-- C9: the pure-call annotator decides by the callee object's identifier
name alone, against the fixed 34-name module list, with no import
resolution: `const x = M.f(42)` in a file with no imports is annotated
exactly when `M` is in the list (so a local binding that happens to be named
`Effect` is annotated, and any other alias never is); and a call whose
callee is not an effect-module member expression is never annotated,
whatever its position. -/
theorem C9_allowlist_name_only :
    EFFECT_MODULES.length = 34 ∧
    (∀ M : String,
      (annotateEffects "src" (some (annotProbe M)) "f.ts").transformed =
        EFFECT_MODULES.contains M) ∧
    (∀ ancs c args loc, isEffectModuleCall c = false →
      annN ancs (.call c args loc) =
        .call (annN (.other :: ancs) c) (annL (.other :: ancs) args) loc) := by
  refine ⟨rfl, fun M => ?_, fun ancs c args loc h => ?_⟩
  · by_cases hm : M ∈ EFFECT_MODULES
    · simp [annotateEffects, annotProbe, annHitL, annHitN, isEffectModuleCall,
        isInAnnotatableContext, hm]
    · simp [annotateEffects, annotProbe, annHitL, annHitN, isEffectModuleCall,
        isInAnnotatableContext, hm]
  · simp [annN, h]

/-- C9 witness: a call through the alias `x` (not in the module list) is
left unannotated by the traversal. -/
theorem C9_allowlist_name_only_witness :
    annN [] (.call (.ident "x") [] none) =
      .call (annN [.other] (.ident "x")) (annL [.other] []) none :=
  C9_allowlist_name_only.2.2 [] (.ident "x") [] none (by decide)

/-- C10: every rewriting step requires source-location metadata - a
delegating `yield*` without a location is not collected as a frame site and
phase 2 leaves it unrewritten (its argument is still traversed), and a
matched instrumentable call without a location is not span-wrapped (while
the same call with a location is); all four cases return normally, so the
nodes are skipped without failing the invocation. -/
theorem C10_missing_location_skipped (en fileName id refName : String)
    (gn : Option String) (fs : List Node.StackFrameInfo)
    (instr : List String) (assigned : Option String) (p : String)
    (args : List Node) (arg : Node) (l : Loc)
    (hp : instr.contains p = true) :
    Node.collectInnerN en gn (.yieldE true (some arg) none) =
      Node.collectInnerN en gn arg ∧
    Node.rwN fs id en gn refName true (.yieldE true (some arg) none) =
      .yieldE true (some (Node.rwN fs id en gn refName true arg)) none ∧
    Node.spanN instr en fileName assigned
        (.call (.member (.ident en) (.ident p)) args none) =
      .call (.member (.ident en) (.ident p))
        (Node.spanL instr en fileName args) none ∧
    Node.spanN instr en fileName assigned
        (.call (.member (.ident en) (.ident p)) args (some l)) =
      Node.wrapWithSpan
        (.call (.member (.ident en) (.ident p))
          (Node.spanL instr en fileName args) (some l))
        (Node.createSpanName assigned fileName l.line) en := by
  refine ⟨by simp [Node.collectInnerN], by simp [Node.rwN], ?_, ?_⟩
  · simp [Node.spanN]
  · have hp' : p ∈ instr := by simpa using hp
    simp [Node.spanN, Node.wrapWithSpan, hp']

/-- C10 witness: the three skip guards and the contrasting wrap, evaluated
at the basic fixture's `yield*` argument and an `Effect.gen` call. -/
theorem C10_missing_location_skipped_witness :
    Node.collectInnerN "Effect" none
        (.yieldE true (some (.ident "inner")) none) =
      Node.collectInnerN "Effect" none (.ident "inner") ∧
    Node.rwN [] "test.ts" "Effect" none "References" true
        (.yieldE true (some (.ident "inner")) none) =
      .yieldE true
        (some (Node.rwN [] "test.ts" "Effect" none "References" true
          (.ident "inner"))) none ∧
    Node.spanN ["gen"] "Effect" "test.ts" none
        (.call (.member (.ident "Effect") (.ident "gen")) [] none) =
      .call (.member (.ident "Effect") (.ident "gen"))
        (Node.spanL ["gen"] "Effect" "test.ts" []) none ∧
    Node.spanN ["gen"] "Effect" "test.ts" none
        (.call (.member (.ident "Effect") (.ident "gen")) [] (some ⟨4, 16⟩)) =
      Node.wrapWithSpan
        (.call (.member (.ident "Effect") (.ident "gen"))
          (Node.spanL ["gen"] "Effect" "test.ts" []) (some ⟨4, 16⟩))
        (Node.createSpanName none "test.ts" 4) "Effect" :=
  C10_missing_location_skipped "Effect" "test.ts" "test.ts" "References"
    none [] ["gen"] none "gen" [] (.ident "inner") ⟨4, 16⟩ (by decide)

/-- C5: with `sourceTrace: false` and spans not enabled, `transform` returns
`transformed: false` with the code field equal to the input text; and for
every input and options whatsoever a `transformed = false` result carries
the original input text unchanged - so running the engine twice in that
configuration is a no-op. -/
theorem C5_untransformed_code_is_input (text : String)
    (parsed : Option (List Node)) (id : String) (opts : Options) :
    (opts.sourceTrace = some false → spansEnabled opts = false →
      transform text parsed id opts = ⟨.original text, false⟩) ∧
    ((transform text parsed id opts).transformed = false →
      (transform text parsed id opts).code = .original text) := by
  constructor
  · intro h1 h2
    cases parsed with
    | none => rfl
    | some prog =>
      simp [transform, transformPlan, h1, h2]
  · intro h
    unfold transform at h ⊢
    rcases hp : transformPlan parsed id opts with _ | p
    · rfl
    · rw [hp] at h
      simp at h

/-- C5 witness: the no-op configuration evaluated on the basic fixture. -/
theorem C5_untransformed_code_is_input_witness :
    transform "src" (some getUserProgram) "test.ts"
        { sourceTrace := some false } = ⟨.original "src", false⟩ :=
  (C5_untransformed_code_is_input "src" (some getUserProgram) "test.ts"
    { sourceTrace := some false }).1 rfl rfl

/-! ### The dedup registry under distinct location keys (C6) -/

namespace Node

/-- The frame list phase 1 builds when no key repeats: one frame per site in
first-visit order, synthetic ids numbered from `n`. -/
def framesSpec (id : String) (extractFn : Bool) (n : Nat) :
    List (Loc × Node) → List StackFrameInfo
  | [] => []
  | (l, a) :: rest =>
    { name := if extractFn then extractFunctionName a else "effect",
      location := locationKey id l,
      varName := "_sf" ++ toString n } :: framesSpec id extractFn (n + 1) rest

theorem framesSpec_map_location (id : String) (extractFn : Bool) (n : Nat)
    (sites : List (Loc × Node)) :
    (framesSpec id extractFn n sites).map (·.location) =
      sites.map (fun s => locationKey id s.1) := by
  induction sites generalizing n with
  | nil => rfl
  | cons s rest ih => obtain ⟨l, a⟩ := s; simp [framesSpec, ih]

theorem framesSpec_map_varName (id : String) (extractFn : Bool) (n : Nat)
    (sites : List (Loc × Node)) :
    (framesSpec id extractFn n sites).map (·.varName) =
      (List.range' n sites.length).map (fun i => "_sf" ++ toString i) := by
  induction sites generalizing n with
  | nil => rfl
  | cons s rest ih =>
    obtain ⟨l, a⟩ := s
    simp [framesSpec, List.range'_succ, ih]

theorem framesSpec_length (id : String) (extractFn : Bool) (n : Nat)
    (sites : List (Loc × Node)) :
    (framesSpec id extractFn n sites).length = sites.length := by
  induction sites generalizing n with
  | nil => rfl
  | cons s rest ih => obtain ⟨l, a⟩ := s; simp [framesSpec, ih]

/-- With pairwise-distinct keys and an accumulator disjoint from them, the
registry fold appends exactly one frame per site, numbering on from the
accumulator's size. -/
theorem buildFramesGo_eq_framesSpec (id : String) (extractFn : Bool)
    (sites : List (Loc × Node)) (acc : List StackFrameInfo)
    (hnd : (sites.map (fun s => locationKey id s.1)).Nodup)
    (hdisj : ∀ s ∈ sites, ∀ f ∈ acc, f.location ≠ locationKey id s.1) :
    buildFramesGo id extractFn acc sites =
      acc ++ framesSpec id extractFn acc.length sites := by
  induction sites generalizing acc with
  | nil => simp [buildFramesGo, framesSpec]
  | cons s rest ih =>
    obtain ⟨l, a⟩ := s
    have hmem : acc.any (fun f => f.location == locationKey id l) = false := by
      rw [List.any_eq_false]
      intro f hf
      simpa using hdisj (l, a) (by simp) f hf
    rw [buildFramesGo, hmem]
    simp only [Bool.false_eq_true, if_false]
    rw [ih]
    · simp [framesSpec]
    · exact (List.nodup_cons.mp hnd).2
    · intro s' hs' f hf
      rcases List.mem_append.mp hf with hfa | hfn
      · exact hdisj s' (List.mem_cons_of_mem _ hs') f hfa
      · have hfe : f.location = locationKey id l := by
          simp only [List.mem_singleton] at hfn
          subst hfn; rfl
        rw [hfe]
        have hnotin : locationKey id l ∉ rest.map (fun s => locationKey id s.1) := by
          simpa using (List.nodup_cons.mp hnd).1
        intro hcontra
        exact hnotin (by rw [hcontra]; exact List.mem_map_of_mem _ hs')

theorem buildFrames_eq_framesSpec (id : String) (extractFn : Bool)
    (sites : List (Loc × Node))
    (hnd : (sites.map (fun s => locationKey id s.1)).Nodup) :
    buildFrames id extractFn sites = framesSpec id extractFn 0 sites := by
  simpa using buildFramesGo_eq_framesSpec id extractFn sites [] hnd
    (by intro s _ f hf; cases hf)

/-- Under distinct keys, looking each site's key up in the full registry
yields exactly that site's own frame, in order. -/
theorem lookup_framesSpec (id : String) (extractFn : Bool) (n : Nat)
    (sites : List (Loc × Node))
    (hnd : (sites.map (fun s => locationKey id s.1)).Nodup) :
    sites.map
        (fun s => frameFor (framesSpec id extractFn n sites)
          (locationKey id s.1)) =
      (framesSpec id extractFn n sites).map some := by
  induction sites generalizing n with
  | nil => rfl
  | cons s rest ih =>
    obtain ⟨l, a⟩ := s
    obtain ⟨hnotin, hnd'⟩ := List.nodup_cons.mp hnd
    simp only [framesSpec, List.map_cons, frameFor]
    rw [List.find?_cons_of_pos _ (by simp)]
    congr 1
    have step : ∀ s' ∈ rest,
        frameFor
          ({ name := if extractFn then extractFunctionName a else "effect",
             location := locationKey id l,
             varName := "_sf" ++ toString n } :: framesSpec id extractFn (n + 1) rest)
          (locationKey id s'.1) =
        frameFor (framesSpec id extractFn (n + 1) rest) (locationKey id s'.1) := by
      intro s' hs'
      have hne : locationKey id l ≠ locationKey id s'.1 := by
        have h' : locationKey id l ∉ rest.map (fun s => locationKey id s.1) := by
          simpa using hnotin
        intro hcontra
        exact h' (by rw [hcontra]; exact List.mem_map_of_mem _ hs')
      simp only [frameFor]
      rw [List.find?_cons_of_neg _ (by simpa using hne)]
    calc rest.map (fun s' => frameFor (_ :: framesSpec id extractFn (n + 1) rest)
            (locationKey id s'.1))
        = rest.map (fun s' => frameFor (framesSpec id extractFn (n + 1) rest)
            (locationKey id s'.1)) := List.map_congr_left step
      _ = (framesSpec id extractFn (n + 1) rest).map some := ih (n + 1) hnd'

theorem perm_append_swap {α : Type _} (w x y z : List α) :
    ((w ++ x) ++ (y ++ z)).Perm ((w ++ y) ++ (x ++ z)) := by
  have h : (x ++ (y ++ z)).Perm (y ++ (x ++ z)) := by
    rw [← List.append_assoc, ← List.append_assoc]
    exact List.perm_append_comm.append_right z
  rw [List.append_assoc, List.append_assoc]
  exact h.append_left w

theorem perm_glue {α : Type _} {m1 m2 A1 A2 B1 B2 : List α}
    (h1 : m1.Perm (A1 ++ A2)) (h2 : m2.Perm (B1 ++ B2)) :
    (m1 ++ m2).Perm ((A1 ++ B1) ++ (A2 ++ B2)) :=
  (h1.append h2).trans (perm_append_swap A1 A2 B1 B2)

mutual

/-- Inside a generator body, the single-walk enumeration is a permutation of
the inner-walk sites together with the sites of nested generators. -/
theorem collectMode_true_perm (en : String) (gn : Option String) (x : Node) :
    (collectModeN en gn true x).Perm
      (collectInnerN en gn x ++ collectMainN en gn x) := by
  cases x with
  | call callee args l =>
    by_cases hg : isEffectGenCall callee en gn = true
    · by_cases hh : isGeneratorHead args = true
      · have h := perm_glue (collectMode_true_perm en gn callee)
          (collectModeL_true_perm en gn args)
        simpa [collectModeN, collectInnerN, collectMainN, hg, hh,
          List.append_assoc] using h
      · have h := (collectMode_false_perm en gn callee).append
          (collectModeL_false_perm en gn args)
        simpa [collectModeN, collectInnerN, collectMainN, hg, hh,
          List.append_assoc] using h
    · have h := perm_glue (collectMode_true_perm en gn callee)
        (collectModeL_true_perm en gn args)
      simpa [collectModeN, collectInnerN, collectMainN, hg,
        List.append_assoc] using h
  | yieldE d a l =>
    cases a with
    | none =>
      cases d <;> cases l <;> simp [collectModeN, collectInnerN, collectMainN]
    | some arg =>
      have h := collectMode_true_perm en gn arg
      cases d <;> cases l <;>
        simpa [collectModeN, collectInnerN, collectMainN] using h
  | member o p =>
    have h := perm_glue (collectMode_true_perm en gn o)
      (collectMode_true_perm en gn p)
    simpa [collectModeN, collectInnerN, collectMainN, List.append_assoc]
      using h
  | functionE g body =>
    have h := collectModeL_true_perm en gn body
    simpa [collectModeN, collectInnerN, collectMainN] using h
  | arrow ps b =>
    have h := collectMode_true_perm en gn b
    simpa [collectModeN, collectInnerN, collectMainN] using h
  | objectE props =>
    have h := collectModeL_true_perm en gn props
    simpa [collectModeN, collectInnerN, collectMainN] using h
  | propE n v =>
    have h := collectMode_true_perm en gn v
    simpa [collectModeN, collectInnerN, collectMainN] using h
  | spreadE e =>
    have h := collectMode_true_perm en gn e
    simpa [collectModeN, collectInnerN, collectMainN] using h
  | arrayE es =>
    have h := collectModeL_true_perm en gn es
    simpa [collectModeN, collectInnerN, collectMainN] using h
  | varDecl n i =>
    have h := collectMode_true_perm en gn i
    simpa [collectModeN, collectInnerN, collectMainN] using h
  | exprStmt e =>
    have h := collectMode_true_perm en gn e
    simpa [collectModeN, collectInnerN, collectMainN] using h
  | ret e =>
    have h := collectMode_true_perm en gn e
    simpa [collectModeN, collectInnerN, collectMainN] using h
  | exportDefault e =>
    have h := collectMode_true_perm en gn e
    simpa [collectModeN, collectInnerN, collectMainN] using h
  | annot e =>
    have h := collectMode_true_perm en gn e
    simpa [collectModeN, collectInnerN, collectMainN] using h
  | ident n => simp [collectModeN, collectInnerN, collectMainN]
  | strLit s => simp [collectModeN, collectInnerN, collectMainN]
  | numLit n => simp [collectModeN, collectInnerN, collectMainN]
  | importD s sp => simp [collectModeN, collectInnerN, collectMainN]

/-- Outside every generator body, the single-walk enumeration is a
permutation of the main traversal's grouped enumeration. -/
theorem collectMode_false_perm (en : String) (gn : Option String) (x : Node) :
    (collectModeN en gn false x).Perm (collectMainN en gn x) := by
  cases x with
  | call callee args l =>
    by_cases hg : isEffectGenCall callee en gn = true
    · by_cases hh : isGeneratorHead args = true
      · have h := perm_glue (collectMode_true_perm en gn callee)
          (collectModeL_true_perm en gn args)
        simpa [collectModeN, collectMainN, hg, hh, List.append_assoc] using h
      · have h := (collectMode_false_perm en gn callee).append
          (collectModeL_false_perm en gn args)
        simpa [collectModeN, collectMainN, hg, hh, List.append_assoc] using h
    · have h := (collectMode_false_perm en gn callee).append
        (collectModeL_false_perm en gn args)
      simpa [collectModeN, collectMainN, hg, List.append_assoc] using h
  | yieldE d a l =>
    cases a with
    | none => cases d <;> cases l <;> simp [collectModeN, collectMainN]
    | some arg =>
      have h := collectMode_false_perm en gn arg
      cases d <;> cases l <;> simpa [collectModeN, collectMainN] using h
  | member o p =>
    have h := (collectMode_false_perm en gn o).append
      (collectMode_false_perm en gn p)
    simpa [collectModeN, collectMainN] using h
  | functionE g body =>
    have h := collectModeL_false_perm en gn body
    simpa [collectModeN, collectMainN] using h
  | arrow ps b =>
    have h := collectMode_false_perm en gn b
    simpa [collectModeN, collectMainN] using h
  | objectE props =>
    have h := collectModeL_false_perm en gn props
    simpa [collectModeN, collectMainN] using h
  | propE n v =>
    have h := collectMode_false_perm en gn v
    simpa [collectModeN, collectMainN] using h
  | spreadE e =>
    have h := collectMode_false_perm en gn e
    simpa [collectModeN, collectMainN] using h
  | arrayE es =>
    have h := collectModeL_false_perm en gn es
    simpa [collectModeN, collectMainN] using h
  | varDecl n i =>
    have h := collectMode_false_perm en gn i
    simpa [collectModeN, collectMainN] using h
  | exprStmt e =>
    have h := collectMode_false_perm en gn e
    simpa [collectModeN, collectMainN] using h
  | ret e =>
    have h := collectMode_false_perm en gn e
    simpa [collectModeN, collectMainN] using h
  | exportDefault e =>
    have h := collectMode_false_perm en gn e
    simpa [collectModeN, collectMainN] using h
  | annot e =>
    have h := collectMode_false_perm en gn e
    simpa [collectModeN, collectMainN] using h
  | ident n => simp [collectModeN, collectMainN]
  | strLit s => simp [collectModeN, collectMainN]
  | numLit n => simp [collectModeN, collectMainN]
  | importD s sp => simp [collectModeN, collectMainN]

/-- List version of `collectMode_true_perm`. -/
theorem collectModeL_true_perm (en : String) (gn : Option String)
    (xs : List Node) :
    (collectModeL en gn true xs).Perm
      (collectInnerL en gn xs ++ collectMainL en gn xs) := by
  cases xs with
  | nil => simp [collectModeL, collectInnerL, collectMainL]
  | cons x rest =>
    have h := perm_glue (collectMode_true_perm en gn x)
      (collectModeL_true_perm en gn rest)
    simpa [collectModeL, collectInnerL, collectMainL, List.append_assoc]
      using h

/-- List version of `collectMode_false_perm`. -/
theorem collectModeL_false_perm (en : String) (gn : Option String)
    (xs : List Node) :
    (collectModeL en gn false xs).Perm (collectMainL en gn xs) := by
  cases xs with
  | nil => simp [collectModeL, collectMainL]
  | cons x rest =>
    have h := (collectMode_false_perm en gn x).append
      (collectModeL_false_perm en gn rest)
    simpa [collectModeL, collectMainL] using h

end

/-- The phase-2 image of a `yield*` node is again a `yield*` node with the
same delegate flag and location. -/
theorem rwN_yieldE_shape (fs : List StackFrameInfo) (id en : String)
    (gn : Option String) (rn : String) (b : Bool) (d : Bool)
    (a : Option Node) (l : Option Loc) :
    ∃ a', rwN fs id en gn rn b (.yieldE d a l) = .yieldE d a' l := by
  cases a with
  | none => exact ⟨none, rfl⟩
  | some arg =>
    simp only [rwN]
    repeat' split
    all_goals exact ⟨_, rfl⟩

/-- The argument slot of a rewritten `yield*` node. -/
def rwYieldArg (fs : List StackFrameInfo) (id en : String)
    (gn : Option String) (rn : String) (b : Bool) (d : Bool)
    (a : Option Node) (l : Option Loc) : Option Node :=
  match rwN fs id en gn rn b (.yieldE d a l) with
  | .yieldE _ a' _ => a'
  | _ => none

/-- Rewriting a `yield*` node in equational form (usable at any mode). -/
theorem rwN_yieldE_eq (fs : List StackFrameInfo) (id en : String)
    (gn : Option String) (rn : String) (b : Bool) (d : Bool)
    (a : Option Node) (l : Option Loc) :
    rwN fs id en gn rn b (.yieldE d a l) =
      .yieldE d (rwYieldArg fs id en gn rn b d a l) l := by
  obtain ⟨a', ha⟩ := rwN_yieldE_shape fs id en gn rn b d a l
  rw [rwYieldArg, ha]

set_option maxHeartbeats 2000000 in
/-- Phase 2 neither creates nor destroys the `wrapWithUpdateService` shape
at the image of any node: the observation `wrapVar` commutes with the
rewrite.  (The wrap phase 2 installs sits in a `yield*` argument slot, which
is not the image of the original argument node.) -/
theorem wrapVar_rwN (fs : List StackFrameInfo) (id en : String)
    (gn : Option String) (rn : String) (b : Bool) (x : Node) :
    wrapVar en (rwN fs id en gn rn b x) = wrapVar en x := by
  cases x with
  | call callee args l =>
    cases callee <;>
      try (simp [rwN, rwL, wrapVar, rwN_yieldE_eq]; done)
    rename_i o p
    cases o <;> try (simp [rwN, rwL, wrapVar, rwN_yieldE_eq]; done)
    rename_i oname
    cases p <;> try (simp [rwN, rwL, wrapVar, rwN_yieldE_eq]; done)
    rename_i pname
    rcases args with _ | ⟨a0, _ | ⟨a1, _ | ⟨a2, _ | ⟨a3, rest⟩⟩⟩⟩ <;>
      try (simp [rwN, rwL, wrapVar, rwN_yieldE_eq]; done)
    cases a2 <;> try (simp [rwN, rwL, wrapVar, rwN_yieldE_eq]; done)
    rename_i ps body
    rcases ps with _ | ⟨p0, _ | ⟨p1, ps'⟩⟩ <;>
      try (simp [rwN, rwL, wrapVar, rwN_yieldE_eq]; done)
    cases body <;> try (simp [rwN, rwL, wrapVar, rwN_yieldE_eq]; done)
    rename_i props
    rcases props with _ | ⟨q1, _ | ⟨q2, _ | ⟨q3, props'⟩⟩⟩ <;>
      try (simp [rwN, rwL, wrapVar, rwN_yieldE_eq]; done)
    cases q1 <;> try (simp [rwN, rwL, wrapVar, rwN_yieldE_eq]; done)
    rename_i r
    cases r <;> try (simp [rwN, rwL, wrapVar, rwN_yieldE_eq]; done)
    rename_i v
    cases q2 <;> try (simp [rwN, rwL, wrapVar, rwN_yieldE_eq]; done)
    rename_i qn qv
    cases qv <;> simp [rwN, rwL, wrapVar, rwN_yieldE_eq]
  | yieldE d a l => rw [rwN_yieldE_eq]; rfl
  | _ => simp [rwN, wrapVar]

/-- The frame variable a site's key resolves to (if any). -/
def frameVarAt (fs : List StackFrameInfo) (id : String) (s : Loc × Node) :
    Option String :=
  (frameFor fs (locationKey id s.1)).map (·.varName)

mutual

/-- The central phase-2 accounting: on a clean tree, the frame references
observable in the rewritten tree are exactly the frame variables of the
sites the walk enumerates (one reference per site whose key has a frame). -/
theorem obsN_rwN (fs : List StackFrameInfo) (id en : String)
    (gn : Option String) (rn : String) (b : Bool) (x : Node)
    (hc : cleanN en x = true) :
    obsN en (rwN fs id en gn rn b x) =
      (collectModeN en gn b x).filterMap (frameVarAt fs id) := by
  cases x with
  | call callee args l =>
    simp only [cleanN, Bool.and_eq_true] at hc
    simp only [rwN, obsN, collectModeN, List.filterMap_append]
    rw [obsN_rwN fs id en gn rn _ callee hc.1, obsL_rwL fs id en gn rn _ args hc.2]
  | yieldE d a l =>
    cases a with
    | none =>
      cases d <;> simp [rwN, obsN, collectModeN]
    | some arg =>
      simp only [cleanN, Bool.and_eq_true] at hc
      obtain ⟨hw, hcarg⟩ := hc
      cases d with
      | false =>
        cases l <;>
          · simp only [rwN, obsN, collectModeN]
            rw [obsN_rwN fs id en gn rn b arg hcarg]
            simp
      | true =>
        cases l with
        | none =>
          simp only [rwN, obsN, collectModeN]
          rw [wrapVar_rwN]
          simp only [Option.isNone_iff_eq_none] at hw
          rw [hw]
          simp only [List.nil_append]
          rw [obsN_rwN fs id en gn rn b arg hcarg]
        | some loc =>
          cases b with
          | false =>
            simp only [rwN, obsN, collectModeN, Bool.false_eq_true, if_false]
            rw [wrapVar_rwN]
            simp only [Option.isNone_iff_eq_none] at hw
            rw [hw]
            simp only [List.nil_append]
            rw [obsN_rwN fs id en gn rn false arg hcarg]
          | true =>
            simp only [rwN, obsN, collectModeN, if_true]
            cases hf : frameFor fs (locationKey id loc) with
            | none =>
              simp only [obsN]
              rw [wrapVar_rwN]
              simp only [Option.isNone_iff_eq_none] at hw
              rw [hw]
              simp only [List.nil_append]
              rw [obsN_rwN fs id en gn rn true arg hcarg]
              simp [frameVarAt, hf]
            | some fr =>
              simp only [obsN, wrapWithUpdateService, wrapVar, obsL]
              rw [obsN_rwN fs id en gn rn true arg hcarg]
              simp [frameVarAt, hf, obsN]
  | member o p =>
    simp only [cleanN, Bool.and_eq_true] at hc
    simp only [rwN, obsN, collectModeN, List.filterMap_append]
    rw [obsN_rwN fs id en gn rn b o hc.1, obsN_rwN fs id en gn rn b p hc.2]
  | functionE g body =>
    simp only [cleanN] at hc
    simp only [rwN, obsN, collectModeN]
    rw [obsL_rwL fs id en gn rn b body hc]
  | arrow ps bd =>
    simp only [cleanN] at hc
    simp only [rwN, obsN, collectModeN]
    rw [obsN_rwN fs id en gn rn b bd hc]
  | objectE props =>
    simp only [cleanN] at hc
    simp only [rwN, obsN, collectModeN]
    rw [obsL_rwL fs id en gn rn b props hc]
  | propE n v =>
    simp only [cleanN] at hc
    simp only [rwN, obsN, collectModeN]
    rw [obsN_rwN fs id en gn rn b v hc]
  | spreadE e =>
    simp only [cleanN] at hc
    simp only [rwN, obsN, collectModeN]
    rw [obsN_rwN fs id en gn rn b e hc]
  | arrayE es =>
    simp only [cleanN] at hc
    simp only [rwN, obsN, collectModeN]
    rw [obsL_rwL fs id en gn rn b es hc]
  | varDecl n i =>
    simp only [cleanN] at hc
    simp only [rwN, obsN, collectModeN]
    rw [obsN_rwN fs id en gn rn b i hc]
  | exprStmt e =>
    simp only [cleanN] at hc
    simp only [rwN, obsN, collectModeN]
    rw [obsN_rwN fs id en gn rn b e hc]
  | ret e =>
    simp only [cleanN] at hc
    simp only [rwN, obsN, collectModeN]
    rw [obsN_rwN fs id en gn rn b e hc]
  | exportDefault e =>
    simp only [cleanN] at hc
    simp only [rwN, obsN, collectModeN]
    rw [obsN_rwN fs id en gn rn b e hc]
  | annot e =>
    simp only [cleanN] at hc
    simp only [rwN, obsN, collectModeN]
    rw [obsN_rwN fs id en gn rn b e hc]
  | ident n => simp [rwN, obsN, collectModeN]
  | strLit v => simp [rwN, obsN, collectModeN]
  | numLit v => simp [rwN, obsN, collectModeN]
  | importD src sp => simp [rwN, obsN, collectModeN]

/-- List version of `obsN_rwN`. -/
theorem obsL_rwL (fs : List StackFrameInfo) (id en : String)
    (gn : Option String) (rn : String) (b : Bool) (xs : List Node)
    (hc : cleanL en xs = true) :
    obsL en (rwL fs id en gn rn b xs) =
      (collectModeL en gn b xs).filterMap (frameVarAt fs id) := by
  cases xs with
  | nil => simp [rwL, obsL, collectModeL]
  | cons x rest =>
    simp only [cleanL, Bool.and_eq_true] at hc
    simp only [rwL, obsL, collectModeL, List.filterMap_append]
    rw [obsN_rwN fs id en gn rn b x hc.1, obsL_rwL fs id en gn rn b rest hc.2]

end

theorem collectModeL_set_import (en : String) (gn : Option String) (b : Bool)
    (body : List Node) (i : Nat) (src src' : String)
    (sp sp' : List ImportSpec) (h : body[i]? = some (.importD src sp)) :
    collectModeL en gn b (body.set i (.importD src' sp')) =
      collectModeL en gn b body := by
  induction body generalizing i with
  | nil => simp at h
  | cons x rest ih =>
    cases i with
    | zero =>
      simp only [List.getElem?_cons_zero, Option.some.injEq] at h
      subst h
      simp [collectModeL, collectModeN]
    | succ n =>
      simp only [List.getElem?_cons_succ] at h
      simp [collectModeL, ih n h]

theorem cleanL_set_import (en : String) (body : List Node) (i : Nat)
    (src src' : String) (sp sp' : List ImportSpec)
    (h : body[i]? = some (.importD src sp)) :
    cleanL en (body.set i (.importD src' sp')) = cleanL en body := by
  induction body generalizing i with
  | nil => simp at h
  | cons x rest ih =>
    cases i with
    | zero =>
      simp only [List.getElem?_cons_zero, Option.some.injEq] at h
      subst h
      simp [cleanL, cleanN]
    | succ n =>
      simp only [List.getElem?_cons_succ] at h
      simp [cleanL, ih n h]

theorem hoistedVars_set_import (body : List Node) (i : Nat)
    (src src' : String) (sp sp' : List ImportSpec)
    (h : body[i]? = some (.importD src sp)) :
    hoistedVars (body.set i (.importD src' sp')) = hoistedVars body := by
  induction body generalizing i with
  | nil => simp at h
  | cons x rest ih =>
    cases i with
    | zero =>
      simp only [List.getElem?_cons_zero, Option.some.injEq] at h
      subst h
      simp [hoistedVars, frameDeclVar]
    | succ n =>
      simp only [List.getElem?_cons_succ] at h
      simp only [List.set_cons_succ, hoistedVars, List.filterMap_cons]
      rw [show List.filterMap frameDeclVar (rest.set n (.importD src' sp')) =
        hoistedVars (rest.set n (.importD src' sp')) from rfl, ih n h]
      rfl

/-- Guaranteeing the `References` import changes only import statements: the
walk enumerations, cleanliness and the hoisted-declaration observation are
unchanged. -/
theorem ensureReferencesImport_preserves (en : String) (gn : Option String)
    (b : Bool) (body : List Node) :
    collectModeL en gn b (ensureReferencesImport body).2 =
      collectModeL en gn b body ∧
    cleanL en (ensureReferencesImport body).2 = cleanL en body ∧
    hoistedVars (ensureReferencesImport body).2 = hoistedVars body := by
  unfold ensureReferencesImport
  split
  next i hfind =>
    split
    next src specs hget =>
      split
      next l hl => exact ⟨rfl, rfl, rfl⟩
      next hrefs =>
        exact ⟨collectModeL_set_import en gn b body i src src _ _ hget,
          cleanL_set_import en body i src src _ _ hget,
          hoistedVars_set_import body i src src _ _ hget⟩
    next hother => exact ⟨rfl, rfl, rfl⟩
  next hnone =>
    refine ⟨?_, ?_, ?_⟩
    · simp [collectModeL, collectModeN]
    · simp [cleanL, cleanN]
    · simp [hoistedVars, frameDeclVar]

set_option maxHeartbeats 2000000 in
/-- Phase 2 neither creates nor destroys the hoisted frame-declaration shape
at the image of any statement: `frameDeclVar` commutes with the rewrite. -/
theorem frameDeclVar_rwN (fs : List StackFrameInfo) (id en : String)
    (gn : Option String) (rn : String) (b : Bool) (x : Node) :
    frameDeclVar (rwN fs id en gn rn b x) = frameDeclVar x := by
  cases x with
  | varDecl n i =>
    cases i <;> try (simp [rwN, rwL, frameDeclVar, rwN_yieldE_eq]; done)
    rename_i props
    rcases props with _ | ⟨q1, _ | ⟨q2, _ | ⟨q3, _ | ⟨q4, rest⟩⟩⟩⟩ <;>
      try (simp [rwN, rwL, frameDeclVar, rwN_yieldE_eq]; done)
    cases q1 <;> try (simp [rwN, rwL, frameDeclVar, rwN_yieldE_eq]; done)
    rename_i pn v1
    cases v1 <;> try (simp [rwN, rwL, frameDeclVar, rwN_yieldE_eq]; done)
    cases q2 <;> try (simp [rwN, rwL, frameDeclVar, rwN_yieldE_eq]; done)
    rename_i ps v2
    cases v2 <;> try (simp [rwN, rwL, frameDeclVar, rwN_yieldE_eq]; done)
    rename_i ps2 bd
    rcases ps2 with _ | ⟨p0, ps2'⟩ <;>
      try (simp [rwN, rwL, frameDeclVar, rwN_yieldE_eq]; done)
    cases bd <;> try (simp [rwN, rwL, frameDeclVar, rwN_yieldE_eq]; done)
    cases q3 <;> try (simp [rwN, rwL, frameDeclVar, rwN_yieldE_eq]; done)
    rename_i pp v3
    cases v3 <;> simp [rwN, rwL, frameDeclVar, rwN_yieldE_eq]
  | yieldE d a l => rw [rwN_yieldE_eq]; rfl
  | _ => simp [rwN, frameDeclVar]

theorem obsL_append (en : String) (a b : List Node) :
    obsL en (a ++ b) = obsL en a ++ obsL en b := by
  induction a with
  | nil => simp [obsL]
  | cons x rest ih => simp [obsL, ih]

theorem frameDeclVar_create (f : StackFrameInfo) :
    frameDeclVar (createStackFrameDeclaration f) = some f.varName := by
  simp [frameDeclVar, createStackFrameDeclaration]

theorem obsN_create (en : String) (f : StackFrameInfo) :
    obsN en (createStackFrameDeclaration f) = [] := by
  simp [obsN, createStackFrameDeclaration, obsL]

theorem obsL_decls (en : String) (fs : List StackFrameInfo) :
    obsL en (fs.map createStackFrameDeclaration) = [] := by
  induction fs with
  | nil => simp [obsL]
  | cons f rest ih => simp [obsL, obsN_create, ih]

theorem hoistedVars_rwL (fs : List StackFrameInfo) (id en : String)
    (gn : Option String) (rn : String) (b : Bool) (xs : List Node) :
    hoistedVars (rwL fs id en gn rn b xs) = hoistedVars xs := by
  induction xs with
  | nil => simp [rwL]
  | cons x rest ih =>
    simp only [rwL, hoistedVars, List.filterMap_cons] at ih ⊢
    rw [frameDeclVar_rwN]
    cases frameDeclVar x <;> simp [ih]

theorem filterMap_of_lookup (FS : List StackFrameInfo) (id : String)
    (sites : List (Loc × Node)) (gs : List StackFrameInfo)
    (h : sites.map (fun s => frameFor FS (locationKey id s.1)) = gs.map some) :
    sites.filterMap (frameVarAt FS id) = gs.map (·.varName) := by
  induction sites generalizing gs with
  | nil =>
    cases gs with
    | nil => rfl
    | cons g gs' => simp at h
  | cons s rest ih =>
    cases gs with
    | nil => simp at h
    | cons g gs' =>
      simp only [List.map_cons, List.cons.injEq] at h
      simp only [List.filterMap_cons, frameVarAt, h.1, Option.map_some,
        List.map_cons]
      rw [show List.filterMap (frameVarAt FS id) rest =
        gs'.map (·.varName) from ih gs' h.2]
      rfl

theorem any_isSome_of_lookup (FS : List StackFrameInfo) (id : String)
    (sites : List (Loc × Node)) (gs : List StackFrameInfo)
    (h : sites.map (fun s => frameFor FS (locationKey id s.1)) = gs.map some)
    (hne : sites ≠ []) :
    (sites.any (fun s => (frameFor FS (locationKey id s.1)).isSome)) = true := by
  cases sites with
  | nil => exact absurd rfl hne
  | cons s rest =>
    cases gs with
    | nil => simp at h
    | cons g gs' =>
      simp only [List.map_cons, List.cons.injEq] at h
      simp [List.any_cons, h.1]

end Node

/-- The resolved effect namespace alias (with the source's `?? "Effect"`
default applied). -/
def resolvedEffectName (prog : List Node) : String :=
  (Node.findEffectImport prog).1.getD "Effect"

/-- The resolved named `gen` import, if any. -/
def resolvedGenName (prog : List Node) : Option String :=
  (Node.findEffectImport prog).2

/-- The delegation sites phase 1 enumerates, in first-visit order. -/
def genSites (prog : List Node) : List (Loc × Node) :=
  Node.collectMainL (resolvedEffectName prog) (resolvedGenName prog) prog

/-- The frame registry phase 1 builds for a file. -/
def frameRegistry (id : String) (opts : Options) (prog : List Node) :
    List Node.StackFrameInfo :=
  Node.buildFrames id (opts.extractFunctionName != some false) (genSites prog)

/-- The value `transformPlan` takes when the source-trace pass runs alone
and finds frames: the rewritten program with the hoisted block spliced in
after the imports. -/
theorem transformPlan_sourceTrace (prog : List Node) (id : String)
    (opts : Options) (en : String) (gn : Option String)
    (fs : List Node.StackFrameInfo)
    (hen : (Node.findEffectImport prog).1.getD "Effect" = en)
    (hgn : (Node.findEffectImport prog).2 = gn)
    (hfs : Node.buildFrames id (opts.extractFunctionName != some false)
      (Node.collectMainL en gn prog) = fs)
    (hst : (opts.sourceTrace != some false) = true)
    (hsp : spansEnabled opts = false)
    (hguard : (en == "" && (gn == (none : Option String))) = false)
    (hempty : fs.isEmpty = false)
    (hany : ((Node.collectMainL en gn prog).any
      (fun s => (Node.frameFor fs (Node.locationKey id s.1)).isSome)) = true) :
    transformPlan (some prog) id opts =
      some ((Node.rwL fs id en gn (Node.ensureReferencesImport prog).1 false
          (Node.ensureReferencesImport prog).2).take
          (Node.insertIdx (Node.rwL fs id en gn
            (Node.ensureReferencesImport prog).1 false
            (Node.ensureReferencesImport prog).2)) ++
        fs.map Node.createStackFrameDeclaration ++
        (Node.rwL fs id en gn (Node.ensureReferencesImport prog).1 false
          (Node.ensureReferencesImport prog).2).drop
          (Node.insertIdx (Node.rwL fs id en gn
            (Node.ensureReferencesImport prog).1 false
            (Node.ensureReferencesImport prog).2))) := by
  subst hen hgn hfs
  simp only [transformPlan, hst, hsp, Bool.false_and, Bool.and_self,
    if_false, Bool.false_eq_true, hguard, hempty, hany, Bool.false_or,
    if_true]

/-- C6: for an input file whose delegation sites carry pairwise-distinct
`fileId:line:column` keys (and which contains no pre-existing frame wraps or
hoisted frame declarations), the source-trace pass builds one frame record
per site with synthetic ids `_sf0, _sf1, ...` allocated in first-visit
order, no two records share a location key, the emitted program hoists
exactly those `N = sites.length` declarations, and the frame references in
the rewritten output are exactly one per record (their multiset equals the
records' ids). -/
theorem C6_frame_registry_invariant (text id : String) (prog : List Node)
    (opts : Options)
    (hst : (opts.sourceTrace != some false) = true)
    (hsp : spansEnabled opts = false)
    (hen : resolvedEffectName prog ≠ "")
    (hnd : ((genSites prog).map (fun s => Node.locationKey id s.1)).Nodup)
    (hcln : Node.cleanL (resolvedEffectName prog) prog = true)
    (hhv : Node.hoistedVars prog = [])
    (hne : genSites prog ≠ []) :
    (frameRegistry id opts prog).map (·.varName) =
      (List.range (genSites prog).length).map
        (fun i => "_sf" ++ toString i) ∧
    ((frameRegistry id opts prog).map (·.location)).Nodup ∧
    (frameRegistry id opts prog).length = (genSites prog).length ∧
    (transform text (some prog) id opts).transformed = true ∧
    Node.hoistedVars (emittedBody (transform text (some prog) id opts)) =
      (frameRegistry id opts prog).map (·.varName) ∧
    (Node.obsL (resolvedEffectName prog)
        (emittedBody (transform text (some prog) id opts))).Perm
      ((frameRegistry id opts prog).map (·.varName)) := by
  have hextract : Node.buildFrames id (opts.extractFunctionName != some false)
      (Node.collectMainL (resolvedEffectName prog) (resolvedGenName prog)
        prog) = frameRegistry id opts prog := rfl
  have hbf : frameRegistry id opts prog =
      Node.framesSpec id (opts.extractFunctionName != some false) 0
        (genSites prog) :=
    Node.buildFrames_eq_framesSpec id _ (genSites prog) hnd
  have hvar : (frameRegistry id opts prog).map (·.varName) =
      (List.range (genSites prog).length).map (fun i => "_sf" ++ toString i) := by
    rw [hbf, Node.framesSpec_map_varName, List.range_eq_range']
  have hloc : (frameRegistry id opts prog).map (·.location) =
      (genSites prog).map (fun s => Node.locationKey id s.1) := by
    rw [hbf, Node.framesSpec_map_location]
  have hlen : (frameRegistry id opts prog).length =
      (genSites prog).length := by
    rw [hbf, Node.framesSpec_length]
  have hfsne : frameRegistry id opts prog ≠ [] := by
    intro h0
    rw [h0] at hlen
    exact hne (List.eq_nil_of_length_eq_zero hlen.symm)
  have hempty : (frameRegistry id opts prog).isEmpty = false := by
    cases hE : frameRegistry id opts prog with
    | nil => exact absurd hE hfsne
    | cons f rest => rfl
  have hlook : (genSites prog).map
        (fun s => Node.frameFor (frameRegistry id opts prog)
          (Node.locationKey id s.1)) =
      (frameRegistry id opts prog).map some := by
    rw [hbf]
    exact Node.lookup_framesSpec id _ 0 (genSites prog) hnd
  have hany : ((genSites prog).any
      (fun s => (Node.frameFor (frameRegistry id opts prog)
        (Node.locationKey id s.1)).isSome)) = true :=
    Node.any_isSome_of_lookup _ id _ _ hlook hne
  have hguard : ((resolvedEffectName prog == "") &&
      ((resolvedGenName prog) == (none : Option String))) = false := by
    have h1 : (resolvedEffectName prog == "") = false := by
      simpa using hen
    simp [h1]
  have hplan := transformPlan_sourceTrace prog id opts
    (resolvedEffectName prog) (resolvedGenName prog)
    (frameRegistry id opts prog) rfl rfl hextract hst hsp hguard hempty hany
  have htr : transform text (some prog) id opts =
      ⟨.emitted ((Node.rwL (frameRegistry id opts prog) id
          (resolvedEffectName prog) (resolvedGenName prog)
          (Node.ensureReferencesImport prog).1 false
          (Node.ensureReferencesImport prog).2).take
          (Node.insertIdx (Node.rwL (frameRegistry id opts prog) id
            (resolvedEffectName prog) (resolvedGenName prog)
            (Node.ensureReferencesImport prog).1 false
            (Node.ensureReferencesImport prog).2)) ++
        (frameRegistry id opts prog).map Node.createStackFrameDeclaration ++
        (Node.rwL (frameRegistry id opts prog) id
          (resolvedEffectName prog) (resolvedGenName prog)
          (Node.ensureReferencesImport prog).1 false
          (Node.ensureReferencesImport prog).2).drop
          (Node.insertIdx (Node.rwL (frameRegistry id opts prog) id
            (resolvedEffectName prog) (resolvedGenName prog)
            (Node.ensureReferencesImport prog).1 false
            (Node.ensureReferencesImport prog).2))), true⟩ := by
    rw [transform, hplan]
  obtain ⟨hpres_collect, hpres_clean, hpres_hv⟩ :=
    Node.ensureReferencesImport_preserves (resolvedEffectName prog)
      (resolvedGenName prog) false prog
  have hprog3hv : Node.hoistedVars (Node.rwL (frameRegistry id opts prog) id
      (resolvedEffectName prog) (resolvedGenName prog)
      (Node.ensureReferencesImport prog).1 false
      (Node.ensureReferencesImport prog).2) = [] := by
    rw [Node.hoistedVars_rwL, hpres_hv, hhv]
  have hprog3obs : Node.obsL (resolvedEffectName prog)
      (Node.rwL (frameRegistry id opts prog) id (resolvedEffectName prog)
        (resolvedGenName prog) (Node.ensureReferencesImport prog).1 false
        (Node.ensureReferencesImport prog).2) =
      (Node.collectModeL (resolvedEffectName prog) (resolvedGenName prog)
        false prog).filterMap
        (Node.frameVarAt (frameRegistry id opts prog) id) := by
    rw [Node.obsL_rwL _ id _ _ _ false _ (by rw [hpres_clean]; exact hcln),
      hpres_collect]
  refine ⟨hvar, hloc ▸ hnd, hlen, by rw [htr], ?_, ?_⟩
  · rw [htr]
    simp only [emittedBody]
    rw [Node.hoistedVars, List.filterMap_append, List.filterMap_append]
    have hnone : ∀ x ∈ (Node.rwL (frameRegistry id opts prog) id
        (resolvedEffectName prog) (resolvedGenName prog)
        (Node.ensureReferencesImport prog).1 false
        (Node.ensureReferencesImport prog).2), Node.frameDeclVar x = none :=
      List.filterMap_eq_nil.mp hprog3hv
    rw [List.filterMap_eq_nil.mpr
        (fun x hx => hnone x (List.take_subset _ _ hx)),
      List.filterMap_eq_nil.mpr
        (fun x hx => hnone x (List.drop_subset _ _ hx))]
    simp only [List.nil_append, List.append_nil]
    rw [List.filterMap_map]
    have : (Node.frameDeclVar ∘ Node.createStackFrameDeclaration) =
        (some ∘ fun f => f.varName) := by
      funext f
      exact Node.frameDeclVar_create f
    rw [this, List.filterMap_eq_map]
  · rw [htr]
    simp only [emittedBody]
    simp only [Node.obsL_append, Node.obsL_decls, List.nil_append,
      List.append_nil]
    have htd : Node.obsL (resolvedEffectName prog) ((Node.rwL
        (frameRegistry id opts prog) id (resolvedEffectName prog)
        (resolvedGenName prog) (Node.ensureReferencesImport prog).1 false
        (Node.ensureReferencesImport prog).2).take
        (Node.insertIdx (Node.rwL (frameRegistry id opts prog) id
          (resolvedEffectName prog) (resolvedGenName prog)
          (Node.ensureReferencesImport prog).1 false
          (Node.ensureReferencesImport prog).2))) ++
        Node.obsL (resolvedEffectName prog) ((Node.rwL
        (frameRegistry id opts prog) id (resolvedEffectName prog)
        (resolvedGenName prog) (Node.ensureReferencesImport prog).1 false
        (Node.ensureReferencesImport prog).2).drop
        (Node.insertIdx (Node.rwL (frameRegistry id opts prog) id
          (resolvedEffectName prog) (resolvedGenName prog)
          (Node.ensureReferencesImport prog).1 false
          (Node.ensureReferencesImport prog).2))) =
        Node.obsL (resolvedEffectName prog) (Node.rwL
        (frameRegistry id opts prog) id (resolvedEffectName prog)
        (resolvedGenName prog) (Node.ensureReferencesImport prog).1 false
        (Node.ensureReferencesImport prog).2) := by
      rw [← Node.obsL_append, List.take_append_drop]
    rw [htd, hprog3obs]
    have hperm := (Node.collectModeL_false_perm (resolvedEffectName prog)
      (resolvedGenName prog) prog).filterMap
      (Node.frameVarAt (frameRegistry id opts prog) id)
    refine hperm.trans ?_
    have hfin : List.filterMap
        (Node.frameVarAt (frameRegistry id opts prog) id)
        (Node.collectMainL (resolvedEffectName prog) (resolvedGenName prog)
          prog) =
        (frameRegistry id opts prog).map (·.varName) :=
      Node.filterMap_of_lookup _ id _ _ hlook
    rw [hfin]

/-- C6 witness: the invariant evaluated on the one-site basic fixture. -/
theorem C6_frame_registry_invariant_witness :
    (frameRegistry "test.ts" {} getUserProgram).map (·.varName) =
      (List.range (genSites getUserProgram).length).map
        (fun i => "_sf" ++ toString i) ∧
    (transform "src" (some getUserProgram) "test.ts" {}).transformed = true :=
  ⟨(C6_frame_registry_invariant "src" "test.ts" getUserProgram {} rfl rfl
      (by decide) (by decide) (by decide) rfl
      (fun h => absurd (congrArg List.length h) (by decide))).1,
   (C6_frame_registry_invariant "src" "test.ts" getUserProgram {} rfl rfl
      (by decide) (by decide) (by decide) rfl
      (fun h => absurd (congrArg List.length h) (by decide))).2.2.2.1⟩

end EffectUnplugin